import Mathlib

/-!
Verification of the WebSocket framing layer and the client routing logic of
the ktls-uring-demo repository (src/websocket.rs and src/main.rs).

Bytes are modelled as natural numbers; the Rust functions operate on u8
slices, and every bit operation of the source is mirrored with the same
masks, so the definitions agree with the source on all byte-valued inputs.
Machine-integer overflow is modelled explicitly (mod 2 ^ 64) exactly where
the source performs usize arithmetic that can overflow.
-/

namespace KtlsDemo

/-- Opcode enum from src/websocket.rs.  The numeric discriminants of the Rust
enum are given by Opcode.toU8 below. -/
inductive Opcode where
  | Continuation
  | Text
  | Binary
  | Close
  | Ping
  | Pong
deriving DecidableEq, Repr

/-- Numeric value of an opcode, matching the discriminants of the Rust enum
(Continuation = 0x0, Text = 0x1, Binary = 0x2, Close = 0x8, Ping = 0x9,
Pong = 0xA). -/
def Opcode.toU8 : Opcode → Nat
  | .Continuation => 0x0
  | .Text => 0x1
  | .Binary => 0x2
  | .Close => 0x8
  | .Ping => 0x9
  | .Pong => 0xA

/-- Opcode.from_u8 from src/websocket.rs lines 21-31. -/
def Opcode.fromU8 (byte : Nat) : Option Opcode :=
  match byte with
  | 0x0 => some .Continuation
  | 0x1 => some .Text
  | 0x2 => some .Binary
  | 0x8 => some .Close
  | 0x9 => some .Ping
  | 0xA => some .Pong
  | _ => none

/-- Decoded WebSocket message (enum Message of src/websocket.rs).  Rust
String values are modelled as lists of Unicode scalar values (the result of
UTF-8 decoding); the close code u16 is a Nat. -/
inductive Message where
  | Text (codes : List Nat)
  | Binary (bytes : List Nat)
  | Close (info : Option (Nat × List Nat))
  | Ping (bytes : List Nat)
  | Pong (bytes : List Nat)
deriving DecidableEq, Repr

/-- FrameHeader struct from src/websocket.rs. -/
structure FrameHeader where
  opcode : Opcode
  payload_len : Nat
  header_len : Nat
deriving DecidableEq, Repr

/-- Lossy UTF-8 decoding of a byte list into Unicode scalar values,
modelling Rust's String::from_utf8_lossy: every maximal invalid subpart is
replaced by U+FFFD.  The fuel argument is an upper bound on the number of
decoding steps; each step consumes at least one byte, so fuel equal to the
list length is always sufficient. -/
def utf8LossyFuel : Nat → List Nat → List Nat
  | 0, _ => []
  | _ + 1, [] => []
  | fuel + 1, b :: rest =>
    if b < 0x80 then
      b :: utf8LossyFuel fuel rest
    else if b < 0xC2 then
      0xFFFD :: utf8LossyFuel fuel rest
    else if b < 0xE0 then
      match rest with
      | c :: rest2 =>
        if 0x80 ≤ c ∧ c ≤ 0xBF then
          ((b - 0xC0) * 64 + (c - 0x80)) :: utf8LossyFuel fuel rest2
        else
          0xFFFD :: utf8LossyFuel fuel rest
      | [] => [0xFFFD]
    else if b < 0xF0 then
      match rest with
      | c :: rest2 =>
        if (if b = 0xE0 then 0xA0 else 0x80) ≤ c ∧
            c ≤ (if b = 0xED then 0x9F else 0xBF) then
          match rest2 with
          | d :: rest3 =>
            if 0x80 ≤ d ∧ d ≤ 0xBF then
              (((b - 0xE0) * 64 + (c - 0x80)) * 64 + (d - 0x80)) ::
                utf8LossyFuel fuel rest3
            else
              0xFFFD :: utf8LossyFuel fuel rest2
          | [] => [0xFFFD]
        else
          0xFFFD :: utf8LossyFuel fuel rest
      | [] => [0xFFFD]
    else if b < 0xF5 then
      match rest with
      | c :: rest2 =>
        if (if b = 0xF0 then 0x90 else 0x80) ≤ c ∧
            c ≤ (if b = 0xF4 then 0x8F else 0xBF) then
          match rest2 with
          | d :: rest3 =>
            if 0x80 ≤ d ∧ d ≤ 0xBF then
              match rest3 with
              | e :: rest4 =>
                if 0x80 ≤ e ∧ e ≤ 0xBF then
                  ((((b - 0xF0) * 64 + (c - 0x80)) * 64 + (d - 0x80)) * 64 +
                      (e - 0x80)) :: utf8LossyFuel fuel rest4
                else
                  0xFFFD :: utf8LossyFuel fuel rest3
              | [] => [0xFFFD]
            else
              0xFFFD :: utf8LossyFuel fuel rest2
          | [] => [0xFFFD]
        else
          0xFFFD :: utf8LossyFuel fuel rest
      | [] => [0xFFFD]
    else
      0xFFFD :: utf8LossyFuel fuel rest

/-- Lossy UTF-8 decoding with sufficient fuel. -/
def utf8Lossy (bytes : List Nat) : List Nat :=
  utf8LossyFuel bytes.length bytes

/-- Unicode scalar values of a Lean string literal, used to write expected
results readably. -/
def strCodes (s : String) : List Nat :=
  s.data.map Char.toNat

/-- Characters of a Lean string literal. -/
def strChars (s : String) : List Char :=
  s.data

/-- Big-endian bytes of a value cast to u16, modelling
(payload_len as u16).to_be_bytes() from src/websocket.rs line 189. -/
def be16 (n : Nat) : List Nat :=
  [n % 65536 / 256, n % 256]

/-- Big-endian bytes of a value cast to u64, modelling
(payload_len as u64).to_be_bytes() from src/websocket.rs line 192. -/
def be64 (n : Nat) : List Nat :=
  [n % 2 ^ 64 / 2 ^ 56 % 256, n % 2 ^ 64 / 2 ^ 48 % 256,
   n % 2 ^ 64 / 2 ^ 40 % 256, n % 2 ^ 64 / 2 ^ 32 % 256,
   n % 2 ^ 64 / 2 ^ 24 % 256, n % 2 ^ 64 / 2 ^ 16 % 256,
   n % 2 ^ 64 / 2 ^ 8 % 256, n % 2 ^ 64 % 256]

/-- Cyclic XOR masking starting at index i: byte at absolute index i is
XORed with key[i % 4].  This models the loops at src/websocket.rs lines
201-203 (encode) and 268-270 (decode), both of which enumerate the payload
from index 0. -/
def maskFrom (key : List Nat) : Nat → List Nat → List Nat
  | _, [] => []
  | i, b :: bs => (b ^^^ key.getD (i % 4) 0) :: maskFrom key (i + 1) bs

/-- encode_frame from src/websocket.rs lines 164-209.  The randomly drawn
4-byte mask key of generate_mask_key is made an explicit parameter
(mask_key), so the nondeterminism of the source is resolved by
quantification; it is only read when masked is true. -/
def encode_frame (opcode : Opcode) (payload : List Nat) (masked : Bool)
    (mask_key : List Nat) : List Nat :=
  let payload_len := payload.length
  let mask_bit := if masked then 0x80 else 0x00
  let lenBytes :=
    if payload_len < 126 then
      [mask_bit ||| payload_len]
    else if payload_len < 65536 then
      (mask_bit ||| 126) :: be16 payload_len
    else
      (mask_bit ||| 127) :: be64 payload_len
  let body :=
    if masked then mask_key ++ maskFrom mask_key 0 payload else payload
  (0x80 ||| opcode.toU8) :: lenBytes ++ body

/-- encode_close_frame from src/websocket.rs lines 155-161: the payload is
the big-endian close code when present, else empty; no reason text can be
carried by this helper. -/
def encode_close_frame (code : Option Nat) (mask_key : List Nat) : List Nat :=
  let payload :=
    match code with
    | some c => be16 c
    | none => []
  encode_frame .Close payload true mask_key

/-- encode_text_frame from src/websocket.rs lines 150-152. -/
def encode_text_frame (textBytes : List Nat) (mask_key : List Nat) : List Nat :=
  encode_frame .Text textBytes true mask_key

/-- parse_frame_header from src/websocket.rs lines 212-248: returns none
when the buffer is too short for the header or the opcode nibble is
unassigned. -/
def parse_frame_header (data : List Nat) : Option FrameHeader :=
  if data.length < 2 then none
  else
    match Opcode.fromU8 (data.getD 0 0 &&& 0x0F) with
    | none => none
    | some opcode =>
      let masked := data.getD 1 0 &&& 0x80 ≠ 0
      let length_byte := data.getD 1 0 &&& 0x7F
      let lens : Option (Nat × Nat) :=
        if length_byte < 126 then
          some (length_byte, 2)
        else if length_byte = 126 then
          if data.length < 4 then none
          else some (data.getD 2 0 * 256 + data.getD 3 0, 4)
        else
          if data.length < 10 then none
          else
            some (((((((data.getD 2 0 * 256 + data.getD 3 0) * 256 +
              data.getD 4 0) * 256 + data.getD 5 0) * 256 +
              data.getD 6 0) * 256 + data.getD 7 0) * 256 +
              data.getD 8 0) * 256 + data.getD 9 0, 10)
      match lens with
      | none => none
      | some (payload_len, hl) =>
        some { opcode := opcode, payload_len := payload_len,
               header_len := if masked then hl + 4 else hl }

/-- Outcome of decode_frame.  The Rust function returns
Option<(Message, usize)>, but it can also panic: the usize addition
header_len + payload_len overflows for adversarial 64-bit length fields
(panic in debug builds, wrap-around in release builds), and after a
wrap-around the slice data[header_len..total_len] has its start beyond its
end, which panics in every build.  The panic constructor captures exactly
those executions. -/
inductive DecodeResult where
  | ok (msg : Message) (consumed : Nat)
  | incomplete
  | panic
deriving DecidableEq, Repr

/-- Message construction from opcode and unmasked payload, from the match at
src/websocket.rs lines 273-298. -/
def mkMsg (opcode : Opcode) (payload : List Nat) : Message :=
  match opcode with
  | .Text => .Text (utf8Lossy payload)
  | .Binary => .Binary payload
  | .Close =>
    if 2 ≤ payload.length then
      .Close (some (payload.getD 0 0 * 256 + payload.getD 1 0,
        if 2 < payload.length then utf8Lossy (payload.drop 2) else []))
    else
      .Close none
  | .Ping => .Ping payload
  | .Pong => .Pong payload
  | .Continuation => .Binary payload

/-- decode_frame from src/websocket.rs lines 252-301.  The total length is
the usize sum header_len + payload_len taken mod 2 ^ 64 (release-build
wrap-around semantics); when the wrapped total is smaller than header_len
the payload slice of the source panics, which the panic outcome records. -/
def decode_frame (data : List Nat) : DecodeResult :=
  match parse_frame_header data with
  | none => .incomplete
  | some header =>
    let total_len := (header.header_len + header.payload_len) % 2 ^ 64
    if data.length < total_len then .incomplete
    else if total_len < header.header_len then .panic
    else
      let raw := (data.drop header.header_len).take (total_len - header.header_len)
      let masked := data.getD 1 0 &&& 0x80 ≠ 0
      let payload :=
        if masked then
          maskFrom ((data.drop (header.header_len - 4)).take 4) 0 raw
        else raw
      .ok (mkMsg header.opcode payload) total_len

/-! SHA-1 and base64, modelling the sha1 and base64 crates as used by
compute_accept_key in src/websocket.rs. -/

/-- Truncation to 32 bits. -/
def w32 (n : Nat) : Nat := n % 4294967296

/-- Left rotation of a 32-bit word by k bits. -/
def rotl (k n : Nat) : Nat :=
  w32 (n <<< k ||| n >>> (32 - k))

/-- SHA-1 padding: append 0x80, zero bytes up to 56 mod 64, then the
big-endian 64-bit bit length of the message. -/
def sha1Pad (msg : List Nat) : List Nat :=
  msg ++ 0x80 :: List.replicate ((119 - msg.length % 64) % 64) 0 ++
    be64 (msg.length * 8)

/-- Big-endian 32-bit words from a byte list whose length is a multiple
of 4. -/
def bytesToWords : List Nat → List Nat
  | b0 :: b1 :: b2 :: b3 :: rest =>
    (((b0 * 256 + b1) * 256 + b2) * 256 + b3) :: bytesToWords rest
  | _ => []

/-- Message-schedule extension: given the 16 block words most recent first,
prepend 64 derived words; the result is returned oldest first. -/
def sha1Extend : Nat → List Nat → List Nat
  | 0, acc => acc.reverse
  | k + 1, acc =>
    sha1Extend k
      (rotl 1 (acc.getD 2 0 ^^^ acc.getD 7 0 ^^^ acc.getD 13 0 ^^^
        acc.getD 15 0) :: acc)

/-- Round function of SHA-1. -/
def sha1F (i b c d : Nat) : Nat :=
  if i < 20 then (b &&& c) ||| ((b ^^^ 0xFFFFFFFF) &&& d)
  else if i < 40 then b ^^^ c ^^^ d
  else if i < 60 then (b &&& c) ||| (b &&& d) ||| (c &&& d)
  else b ^^^ c ^^^ d

/-- Round constants of SHA-1. -/
def sha1K (i : Nat) : Nat :=
  if i < 20 then 0x5A827999
  else if i < 40 then 0x6ED9EBA1
  else if i < 60 then 0x8F1BBCDC
  else 0xCA62C1D6

/-- Eighty compression rounds over the extended schedule. -/
def sha1Rounds : Nat → List Nat → Nat × Nat × Nat × Nat × Nat →
    Nat × Nat × Nat × Nat × Nat
  | _, [], st => st
  | i, w :: ws, (a, b, c, d, e) =>
    sha1Rounds (i + 1) ws
      (w32 (rotl 5 a + sha1F i b c d + e + sha1K i + w), a, rotl 30 b, c, d)

/-- Compression of one 16-word block into the running state. -/
def sha1Block (block : List Nat) (h : Nat × Nat × Nat × Nat × Nat) :
    Nat × Nat × Nat × Nat × Nat :=
  let (h0, h1, h2, h3, h4) := h
  let (a, b, c, d, e) := sha1Rounds 0 (sha1Extend 64 block.reverse) h
  (w32 (h0 + a), w32 (h1 + b), w32 (h2 + c), w32 (h3 + d), w32 (h4 + e))

/-- Folding of consecutive 16-word blocks. -/
def sha1Blocks : List Nat → Nat × Nat × Nat × Nat × Nat →
    Nat × Nat × Nat × Nat × Nat
  | w0 :: w1 :: w2 :: w3 :: w4 :: w5 :: w6 :: w7 :: w8 :: w9 :: w10 ::
      w11 :: w12 :: w13 :: w14 :: w15 :: rest, st =>
    sha1Blocks rest
      (sha1Block [w0, w1, w2, w3, w4, w5, w6, w7, w8, w9, w10, w11, w12,
        w13, w14, w15] st)
  | _, st => st

/-- Big-endian bytes of a 32-bit word. -/
def wordBytes (w : Nat) : List Nat :=
  [w / 2 ^ 24 % 256, w / 2 ^ 16 % 256, w / 2 ^ 8 % 256, w % 256]

/-- SHA-1 digest (20 bytes) of a byte list. -/
def sha1 (msg : List Nat) : List Nat :=
  let (h0, h1, h2, h3, h4) :=
    sha1Blocks (bytesToWords (sha1Pad msg))
      (0x67452301, 0xEFCDAB89, 0x98BADCFE, 0x10325476, 0xC3D2E1F0)
  wordBytes h0 ++ wordBytes h1 ++ wordBytes h2 ++ wordBytes h3 ++
    wordBytes h4

/-- Character code of a base64 alphabet entry (standard alphabet). -/
def b64Char (n : Nat) : Nat :=
  if n < 26 then 65 + n
  else if n < 52 then 97 + (n - 26)
  else if n < 62 then 48 + (n - 52)
  else if n = 62 then 43
  else 47

/-- Standard base64 encoding with padding, as character codes. -/
def base64Encode : List Nat → List Nat
  | [] => []
  | [b0] => [b64Char (b0 / 4), b64Char (b0 % 4 * 16), 61, 61]
  | [b0, b1] =>
    [b64Char (b0 / 4), b64Char (b0 % 4 * 16 + b1 / 16),
     b64Char (b1 % 16 * 4), 61]
  | b0 :: b1 :: b2 :: rest =>
    b64Char (b0 / 4) :: b64Char (b0 % 4 * 16 + b1 / 16) ::
      b64Char (b1 % 16 * 4 + b2 / 64) :: b64Char (b2 % 64) ::
      base64Encode rest

/-- UTF-8 bytes of a Unicode scalar value, modelling how Rust str::as_bytes
exposes a string. -/
def utf8CharBytes (c : Nat) : List Nat :=
  if c < 0x80 then [c]
  else if c < 0x800 then [0xC0 + c / 64, 0x80 + c % 64]
  else if c < 0x10000 then
    [0xE0 + c / 4096, 0x80 + c / 64 % 64, 0x80 + c % 64]
  else
    [0xF0 + c / 262144, 0x80 + c / 4096 % 64, 0x80 + c / 64 % 64,
     0x80 + c % 64]

/-- UTF-8 bytes of a character list (Rust str::as_bytes). -/
def utf8Bytes (l : List Char) : List Nat :=
  (l.map fun c => utf8CharBytes c.toNat).flatten

/-- WS_GUID constant from src/websocket.rs line 69, as its ASCII bytes. -/
def wsGuid : List Nat :=
  strCodes "258EAFA5-E914-47DA-95CA-C5AB0DC85B11"

/-- compute_accept_key from src/websocket.rs lines 72-77: base64 of the
SHA-1 digest of the client key bytes followed by the GUID bytes.  Input and
output are byte lists (the involved strings are ASCII, where character
codes and UTF-8 bytes coincide). -/
def compute_accept_key (sec_key : List Nat) : List Nat :=
  base64Encode (sha1 (sec_key ++ wsGuid))

/-! Handshake response validation, modelling validate_handshake_response
from src/websocket.rs lines 94-132.  Rust strings are modelled as character
lists.  Char.toLower agrees with Rust str::to_lowercase on ASCII (the only
case the checked headers exercise); the whitespace set of trimChars covers
the ASCII whitespace removed by str::trim. -/

/-- Substring test on character lists (str::contains). -/
def containsSub : List Char → List Char → Bool
  | [], pat => pat.isEmpty
  | h :: t, pat => pat.isPrefixOf (h :: t) || containsSub t pat

/-- Splitting on a separator character, keeping empty segments
(the segments produced by str::split). -/
def splitChar (sep : Char) : List Char → List (List Char)
  | [] => [[]]
  | c :: rest =>
    match splitChar sep rest with
    | [] => [[c]]
    | h :: t => if c = sep then [] :: h :: t else (c :: h) :: t

/-- Lines of a string per Rust str::lines: split on the newline character,
drop a final empty segment, and strip one trailing carriage return from
each line. -/
def linesOf (l : List Char) : List (List Char) :=
  let parts := splitChar '\n' l
  let parts := if parts.getLast? = some [] then parts.dropLast else parts
  parts.map fun line =>
    if line.getLast? = some '\r' then line.dropLast else line

/-- ASCII whitespace trim from both ends (str::trim restricted to the ASCII
whitespace characters). -/
def trimChars (l : List Char) : List Char :=
  let ws := fun c => c = ' ' ∨ c = '\t' ∨ c = '\n' ∨ c = '\r'
  ((l.dropWhile ws).reverse.dropWhile ws).reverse

/-- Splitting at the first occurrence of a character, per str::split_once:
none when the character does not occur. -/
def splitOnceChar (sep : Char) : List Char → Option (List Char × List Char)
  | [] => none
  | c :: rest =>
    if c = sep then some ([], rest)
    else
      match splitOnceChar sep rest with
      | none => none
      | some (a, b) => some (c :: a, b)

/-- Accept-header extraction from src/websocket.rs lines 111-121: the first
line whose lowercase form starts with the accept header name contributes
the trimmed text after the first colon; a line without a colon is skipped
by the question-mark inside the find_map closure. -/
def findAccept : List (List Char) → Option (List Char)
  | [] => none
  | line :: rest =>
    if (strChars "sec-websocket-accept:").isPrefixOf (line.map Char.toLower)
    then
      match splitOnceChar ':' line with
      | some (_, after) => some (trimChars after)
      | none => findAccept rest
    else findAccept rest

/-- Validation error cases of validate_handshake_response; the formatted
message strings of the source are elided, keeping one constructor per
distinct early return. -/
inductive VErr where
  | badStatus
  | missingUpgrade
  | missingConnection
  | missingAccept
  | badAccept
deriving DecidableEq, Repr

/-- validate_handshake_response from src/websocket.rs lines 94-132. -/
def validate_handshake_response (response : List Char) (sec_key : List Char) :
    Except VErr Unit :=
  if ¬ (strChars "HTTP/1.1 101").isPrefixOf response then
    .error .badStatus
  else
    let lower := response.map Char.toLower
    if ¬ containsSub lower (strChars "upgrade: websocket") then
      .error .missingUpgrade
    else if ¬ containsSub lower (strChars "connection: upgrade") then
      .error .missingConnection
    else
      match findAccept (linesOf response) with
      | none => .error .missingAccept
      | some accept_value =>
        if accept_value.map Char.toNat =
            compute_accept_key (utf8Bytes sec_key) then
          .ok ()
        else
          .error .badAccept

/-! Models of the client control flow in src/main.rs.  The external calls
(TLS handshake, kTLS configuration, the two transport request bodies, DNS,
connect) are represented by their outcomes, collected in an environment
record; the definitions below reproduce exactly the branching of the
source on those outcomes.  Error payloads and response bodies are Nat
identifiers, since the routing code never inspects them. -/

/-- Error value of io::Error as the read loops observe it: the kind test
e.kind() == ErrorKind::UnexpectedEof and the raw OS errno of
e.raw_os_error(). -/
structure IoErr where
  ue : Bool
  raw : Option Nat
deriving DecidableEq, Repr

/-- Source of the final error of a request, tagging which failing call the
boxed error of the source was propagated from. -/
inductive FinalErr where
  | handshakeErr (e : Nat)
  | offloadErr (e : Nat)
  | transportErr (e : IoErr)
  | fallbackErr (e : Nat)
deriving DecidableEq, Repr

/-- Outcomes of the external calls made by HttpsClient::https_request. -/
structure HttpsEnv where
  handshake : Except Nat Unit
  offload : Except Nat Unit
  ktlsReq : Except IoErr Nat
  fallback : Except Nat Nat
deriving Repr

/-- Routing logic of HttpsClient::https_request, src/main.rs lines 63-84:
a handshake failure or a configure_ktls failure drops the original stream
and runs fallback_new_connection; only on both successes is the kTLS
request path taken.  The first component counts how many times the
fallback path is entered. -/
def https_request (env : HttpsEnv) : Nat × Except FinalErr Nat :=
  match env.handshake with
  | .error _ => (1, env.fallback.mapError .fallbackErr)
  | .ok () =>
    match env.offload with
    | .error _ => (1, env.fallback.mapError .fallbackErr)
    | .ok () => (0, env.ktlsReq.mapError .transportErr)

/-- Outcomes of the external calls made by WssClient::connect up to the
point where a working transport exists; wsRest stands for the remainder of
the function (WebSocket upgrade exchange), which is only reached when
handshake and offload both succeed. -/
structure WssEnv where
  handshake : Except Nat Unit
  offload : Except Nat Unit
  wsRest : Except IoErr Nat
deriving Repr

/-- Routing logic of WssClient::connect, src/main.rs lines 270-277: the
handshake result and the configure_ktls result are both propagated with
the question-mark operator, so a failure of either is returned directly
and no fallback exists on this path.  The first component counts fallback
entries (always zero in this function). -/
def wss_connect (env : WssEnv) : Nat × Except FinalErr Nat :=
  match env.handshake with
  | .error e => (0, .error (.handshakeErr e))
  | .ok () =>
    match env.offload with
    | .error e => (0, .error (.offloadErr e))
    | .ok () => (0, env.wsRest.mapError .transportErr)

/-- One completion delivered to the read loop of
HttpsClient::ktls_request: either a successfully read chunk (possibly
empty) or an I/O error. -/
inductive ReadEvent where
  | chunk (bytes : List Nat)
  | fail (e : IoErr)
deriving DecidableEq, Repr

/-- Read loop of HttpsClient::ktls_request, src/main.rs lines 98-120,
driven by the list of completions the transport delivers: a zero-length
read breaks with the accumulated bytes; an UnexpectedEof-kind error breaks
when bytes have been accumulated and is returned otherwise; any other
error breaks when its raw OS code is 5 (EIO) and bytes have been
accumulated, and is returned otherwise.  The outer none means the event
list ran out with the loop still waiting for a completion. -/
def ktls_read_loop : List ReadEvent → List Nat →
    Option (Except IoErr (List Nat))
  | [], _ => none
  | .chunk bytes :: rest, response =>
    if bytes.isEmpty then some (.ok response)
    else ktls_read_loop rest (response ++ bytes)
  | .fail e :: _, response =>
    if e.ue then
      if ¬ response.isEmpty then some (.ok response)
      else some (.error e)
    else if e.raw = some 5 ∧ ¬ response.isEmpty then some (.ok response)
    else some (.error e)

/-- Result handling of the blocking read in
HttpsClient::fallback_new_connection, src/main.rs lines 158-168: the
argument response holds the bytes accumulated by read_to_string at the
moment it returned, and the optional error is its failure.  An
UnexpectedEof-kind failure with data already received is turned into
success; every other failure is propagated. -/
def fallback_read (response : List Nat) (result : Option IoErr) :
    Except IoErr (List Nat) :=
  match result with
  | none => .ok response
  | some e =>
    if e.ue then
      if ¬ response.isEmpty then .ok response else .error e
    else .error e

/-! Helper functions used to state the claims. -/

/-- Header size before mask bytes, as a function of the payload length
(the header_size computation of encode_frame, lines 168-174). -/
def hdrBase (n : Nat) : Nat :=
  if n < 126 then 2 else if n < 65536 then 4 else 10

/-- Opcode that a decoded message corresponds to, used to state that a
decode reproduces the frame opcode. -/
def msgOpcode : Message → Opcode
  | .Text _ => .Text
  | .Binary _ => .Binary
  | .Close _ => .Close
  | .Ping _ => .Ping
  | .Pong _ => .Pong

/-- UTF-8 bytes of a list of Unicode scalar values. -/
def utf8CodesBytes (l : List Nat) : List Nat :=
  (l.map utf8CharBytes).flatten

/-- Payload bytes represented by a decoded message, used to state that a
decode reproduces the original payload bytes: text and the close reason
contribute their UTF-8 bytes, a close code its two big-endian bytes. -/
def msgBytes : Message → List Nat
  | .Text codes => utf8CodesBytes codes
  | .Binary bytes => bytes
  | .Close none => []
  | .Close (some (code, reason)) => be16 code ++ utf8CodesBytes reason
  | .Ping bytes => bytes
  | .Pong bytes => bytes

/-! Helper lemmas. -/

theorem lor128_eq : ∀ n < 128, 128 ||| n = 128 + n := by decide

theorem land127_eq : ∀ n < 128, (128 + n) &&& 127 = n := by decide

theorem land128_eq : ∀ n < 128, (128 + n) &&& 128 = 128 := by decide

theorem first_byte_and (op : Opcode) :
    (0x80 ||| op.toU8) &&& 0x0F = op.toU8 := by
  cases op <;> decide

theorem fromU8_toU8 (op : Opcode) : Opcode.fromU8 op.toU8 = some op := by
  cases op <;> rfl

theorem maskFrom_length (key : List Nat) (i : Nat) (l : List Nat) :
    (maskFrom key i l).length = l.length := by
  induction l generalizing i with
  | nil => rfl
  | cons b bs ih => simp [maskFrom, ih]

theorem maskFrom_maskFrom (key : List Nat) (i : Nat) (l : List Nat) :
    maskFrom key i (maskFrom key i l) = l := by
  induction l generalizing i with
  | nil => rfl
  | cons b bs ih => simp [maskFrom, ih, Nat.xor_cancel_right]

theorem maskFrom_eq_mapIdx (key : List Nat) (i : Nat) (l : List Nat) :
    maskFrom key i l = l.mapIdx fun j b => b ^^^ key.getD ((i + j) % 4) 0 := by
  induction l generalizing i with
  | nil => rfl
  | cons b bs ih =>
    simp only [maskFrom, List.mapIdx_cons, ih (i + 1), Nat.add_zero]
    have hf : (fun j b => b ^^^ key.getD ((i + 1 + j) % 4) 0) =
        fun j b => b ^^^ key.getD ((i + (j + 1)) % 4) 0 := by
      funext j b
      congr 2
      omega
    rw [hf]

theorem parse_encA (op : Opcode) (n : Nat) (hn : n < 126) (tail : List Nat) :
    parse_frame_header ((0x80 ||| op.toU8) :: (0x80 ||| n) :: tail) =
      some { opcode := op, payload_len := n, header_len := 6 } := by
  have h1 : (0x80 : Nat) ||| n = 128 + n := lor128_eq n (by omega)
  simp only [parse_frame_header, List.length_cons, List.getD_cons_zero,
    List.getD_cons_succ, first_byte_and, fromU8_toU8, h1,
    land127_eq n (by omega), land128_eq n (by omega)]
  simp [hn, show ¬ tail.length + 1 + 1 < 2 by omega]

theorem parse_encB (op : Opcode) (x y : Nat) (tail : List Nat) :
    parse_frame_header ((0x80 ||| op.toU8) :: 254 :: x :: y :: tail) =
      some { opcode := op, payload_len := x * 256 + y, header_len := 8 } := by
  have e1 : (254 : Nat) &&& 0x80 = 128 := by decide
  have e2 : (254 : Nat) &&& 0x7F = 126 := by decide
  simp only [parse_frame_header, List.length_cons, List.getD_cons_zero,
    List.getD_cons_succ, first_byte_and, fromU8_toU8, e1, e2]
  simp [show ¬ tail.length + 1 + 1 + 1 + 1 < 2 by omega,
    show ¬ tail.length + 1 + 1 + 1 + 1 < 4 by omega]

theorem parse_encC (op : Opcode) (e0 e1 e2 e3 e4 e5 e6 e7 : Nat)
    (tail : List Nat) :
    parse_frame_header ((0x80 ||| op.toU8) :: 255 :: e0 :: e1 :: e2 :: e3 ::
        e4 :: e5 :: e6 :: e7 :: tail) =
      some { opcode := op,
             payload_len := ((((((e0 * 256 + e1) * 256 + e2) * 256 + e3) *
               256 + e4) * 256 + e5) * 256 + e6) * 256 + e7,
             header_len := 14 } := by
  have h1 : (255 : Nat) &&& 0x80 = 128 := by decide
  have h2 : (255 : Nat) &&& 0x7F = 127 := by decide
  simp only [parse_frame_header, List.length_cons, List.getD_cons_zero,
    List.getD_cons_succ, first_byte_and, fromU8_toU8, h1, h2]
  simp [show ¬ tail.length + 1 + 1 + 1 + 1 + 1 + 1 + 1 + 1 + 1 + 1 < 2
      by omega,
    show ¬ tail.length + 1 + 1 + 1 + 1 + 1 + 1 + 1 + 1 + 1 + 1 < 10
      by omega]

theorem take_maskFrom_length (key : List Nat) (i : Nat) (l : List Nat) :
    (maskFrom key i l).take l.length = maskFrom key i l := by
  rw [← maskFrom_length key i l]
  exact List.take_length _

theorem decode_encode (op : Opcode) (payload key : List Nat)
    (hk : key.length = 4) (hn : payload.length + 14 < 2 ^ 64) :
    decode_frame (encode_frame op payload true key) =
      DecodeResult.ok (mkMsg op payload)
        (hdrBase payload.length + 4 + payload.length) := by
  rcases key with _ | ⟨k0, _ | ⟨k1, _ | ⟨k2, _ | ⟨k3, _ | ⟨k4, t⟩⟩⟩⟩⟩ <;>
    simp only [List.length_cons, List.length_nil] at hk <;> try omega
  by_cases h1 : payload.length < 126
  · have e1 := lor128_eq payload.length (by omega)
    have e2 := land128_eq payload.length (by omega)
    have hdata : encode_frame op payload true [k0, k1, k2, k3] =
        (0x80 ||| op.toU8) :: (0x80 ||| payload.length) :: k0 :: k1 :: k2 ::
          k3 :: maskFrom [k0, k1, k2, k3] 0 payload := by
      simp [encode_frame, h1]
    rw [hdata]
    simp only [decode_frame, parse_encA op payload.length h1]
    have htot : (6 + payload.length) % 2 ^ 64 = 6 + payload.length :=
      Nat.mod_eq_of_lt (by omega)
    simp only [htot, List.length_cons, maskFrom_length]
    rw [if_neg (by omega), if_neg (by omega)]
    simp only [List.getD_cons_succ, List.getD_cons_zero, e1, e2,
      List.drop_succ_cons, List.drop_zero, Nat.add_sub_cancel_left]
    norm_num [take_maskFrom_length, maskFrom_maskFrom, hdrBase, h1,
      List.take_succ_cons, List.take_zero]
  · by_cases h2 : payload.length < 65536
    · have hdata : encode_frame op payload true [k0, k1, k2, k3] =
          (0x80 ||| op.toU8) :: 254 :: (payload.length % 65536 / 256) ::
            (payload.length % 256) :: k0 :: k1 :: k2 :: k3 ::
            maskFrom [k0, k1, k2, k3] 0 payload := by
        simp [encode_frame, h1, h2, be16, show (0x80 ||| 126 : Nat) = 254
          from by decide]
      rw [hdata]
      simp only [decode_frame,
        parse_encB op (payload.length % 65536 / 256) (payload.length % 256)]
      have hlen : payload.length % 65536 / 256 * 256 + payload.length % 256 =
          payload.length := by omega
      have htot : (8 + payload.length) % 2 ^ 64 = 8 + payload.length :=
        Nat.mod_eq_of_lt (by omega)
      simp only [hlen, htot, List.length_cons, maskFrom_length]
      rw [if_neg (by omega), if_neg (by omega)]
      simp only [List.getD_cons_succ, List.getD_cons_zero,
        show (254 : Nat) &&& 0x80 = 128 from by decide,
        List.drop_succ_cons, List.drop_zero, Nat.add_sub_cancel_left]
      norm_num [take_maskFrom_length, maskFrom_maskFrom, hdrBase, h1, h2,
        List.take_succ_cons, List.take_zero]
    · have hm : payload.length % 2 ^ 64 = payload.length :=
        Nat.mod_eq_of_lt (by omega)
      have hdata : encode_frame op payload true [k0, k1, k2, k3] =
          (0x80 ||| op.toU8) :: 255 :: (payload.length / 2 ^ 56 % 256) ::
            (payload.length / 2 ^ 48 % 256) ::
            (payload.length / 2 ^ 40 % 256) ::
            (payload.length / 2 ^ 32 % 256) ::
            (payload.length / 2 ^ 24 % 256) ::
            (payload.length / 2 ^ 16 % 256) ::
            (payload.length / 2 ^ 8 % 256) :: (payload.length % 256) ::
            k0 :: k1 :: k2 :: k3 :: maskFrom [k0, k1, k2, k3] 0 payload := by
        simp [encode_frame, h1, h2, be64, show (0x80 ||| 127 : Nat) = 255
          from by decide]
        omega
      rw [hdata]
      simp only [decode_frame, parse_encC]
      have hlen : ((((((payload.length / 2 ^ 56 % 256 * 256 +
          payload.length / 2 ^ 48 % 256) * 256 +
          payload.length / 2 ^ 40 % 256) * 256 +
          payload.length / 2 ^ 32 % 256) * 256 +
          payload.length / 2 ^ 24 % 256) * 256 +
          payload.length / 2 ^ 16 % 256) * 256 +
          payload.length / 2 ^ 8 % 256) * 256 + payload.length % 256 =
          payload.length := by omega
      have htot : (14 + payload.length) % 2 ^ 64 = 14 + payload.length :=
        Nat.mod_eq_of_lt (by omega)
      simp only [hlen, htot, List.length_cons, maskFrom_length]
      rw [if_neg (by omega), if_neg (by omega)]
      simp only [List.getD_cons_succ, List.getD_cons_zero,
        show (255 : Nat) &&& 0x80 = 128 from by decide,
        List.drop_succ_cons, List.drop_zero, Nat.add_sub_cancel_left]
      norm_num [take_maskFrom_length, maskFrom_maskFrom, hdrBase, h1, h2,
        List.take_succ_cons, List.take_zero]

/-! Claim theorems. -/

set_option maxRecDepth 20000 in
/-- C6: for the client key dGhlIHNhbXBsZSBub25jZQ==, the computed accept
value base64(SHA-1(key ++ GUID)) equals s3pPLMBiTxaQ9kYGzzhZRbK+xOo=
(the canonical RFC 6455 vector), as computed by compute_accept_key. -/
theorem accept_key_rfc6455_vector :
    compute_accept_key (strCodes "dGhlIHNhbXBsZSBub25jZQ==") =
      strCodes "s3pPLMBiTxaQ9kYGzzhZRbK+xOo=" := by decide

/-- C2: encoding a Close frame carrying code 1000 and reason bye with the
frame encoder (encode_frame on the close payload: the big-endian code
followed by the reason bytes, the payload encode_close_frame would build if
it accepted a reason) and decoding the result with decode_frame yields
Close (some (1000, bye)), for every 4-byte mask key. -/
theorem close_frame_roundtrip (key : List Nat) (hk : key.length = 4) :
    decode_frame
        (encode_frame .Close (be16 1000 ++ strCodes "bye") true key) =
      DecodeResult.ok (.Close (some (1000, strCodes "bye"))) 11 := by
  have h := decode_encode .Close (be16 1000 ++ strCodes "bye") key hk
    (by decide)
  rw [h]
  decide

/-- Witness for close_frame_roundtrip at the concrete mask key
[1, 2, 3, 4]. -/
theorem close_frame_roundtrip_witness :
    decode_frame
        (encode_frame .Close (be16 1000 ++ strCodes "bye") true
          [1, 2, 3, 4]) =
      DecodeResult.ok (.Close (some (1000, strCodes "bye"))) 11 :=
  close_frame_roundtrip [1, 2, 3, 4] (by decide)

/-- C1 counterexample: the claim quantifies over every frame opcode, but
three opcodes fail to reproduce opcode and payload bytes exactly even at
payload lengths from the claimed set.  A Continuation frame (length 0)
decodes to a Binary message, so the opcode is not reproduced; a Text frame
with the non-UTF-8 payload [0xFF] (length 1) decodes to the replacement
character, so the payload bytes are not reproduced; a Close frame with the
1-byte payload [7] decodes to Close none, losing the payload byte. -/
theorem frame_roundtrip_counterexample :
    (decode_frame (encode_frame .Continuation [] true [5, 6, 7, 8]) =
        DecodeResult.ok (.Binary []) 6 ∧
      msgOpcode (.Binary []) ≠ .Continuation) ∧
    (decode_frame (encode_frame .Text [0xFF] true [5, 6, 7, 8]) =
        DecodeResult.ok (.Text [0xFFFD]) 7 ∧
      msgBytes (.Text [0xFFFD]) ≠ [0xFF]) ∧
    (decode_frame (encode_frame .Close [7] true [5, 6, 7, 8]) =
        DecodeResult.ok (.Close none) 7 ∧
      msgBytes (.Close none) ≠ [7]) := by decide

/-- C1 (amended): for every payload whose length lies in
{0, 1, 125, 126, 1000, 65535, 65536} and every 4-byte mask key,
encode-then-decode of a masked client frame reproduces the original opcode
and payload bytes exactly for the opcodes Binary, Ping and Pong; a
Continuation frame reproduces the payload bytes exactly but decodes as a
Binary message (opcodes Text and Close reproduce payload content only for
UTF-8 payloads, as the counterexample shows). -/
theorem frame_roundtrip_amended (payload key : List Nat)
    (hk : key.length = 4)
    (hlen : payload.length ∈ [0, 1, 125, 126, 1000, 65535, 65536]) :
    (decode_frame (encode_frame .Binary payload true key) =
        DecodeResult.ok (.Binary payload)
          (hdrBase payload.length + 4 + payload.length)) ∧
    (decode_frame (encode_frame .Ping payload true key) =
        DecodeResult.ok (.Ping payload)
          (hdrBase payload.length + 4 + payload.length)) ∧
    (decode_frame (encode_frame .Pong payload true key) =
        DecodeResult.ok (.Pong payload)
          (hdrBase payload.length + 4 + payload.length)) ∧
    (decode_frame (encode_frame .Continuation payload true key) =
        DecodeResult.ok (.Binary payload)
          (hdrBase payload.length + 4 + payload.length)) := by
  have h14 : payload.length + 14 < 2 ^ 64 := by
    simp only [List.mem_cons, List.mem_singleton, List.not_mem_nil,
      or_false] at hlen
    rcases hlen with h | h | h | h | h | h | h <;> omega
  exact ⟨decode_encode .Binary payload key hk h14,
    decode_encode .Ping payload key hk h14,
    decode_encode .Pong payload key hk h14,
    decode_encode .Continuation payload key hk h14⟩

/-- Witness for frame_roundtrip_amended at payload [42] and mask key
[1, 2, 3, 4]. -/
theorem frame_roundtrip_amended_witness :
    decode_frame (encode_frame .Binary [42] true [1, 2, 3, 4]) =
      DecodeResult.ok (.Binary [42]) (hdrBase 1 + 4 + 1) :=
  (frame_roundtrip_amended [42] [1, 2, 3, 4] (by decide) (by decide)).1

/-- C8: the encoded client frame has the claimed wire shape: first byte
0x80 OR opcode (FIN always set); a 7-bit length, or marker 126 plus a
16-bit big-endian length, or marker 127 plus a 64-bit big-endian length
(each length byte carrying the mask bit 0x80 in the discriminator byte);
then the 4-byte mask key; then the payload XORed cyclically with the key
(byte i XOR key[i mod 4]). -/
theorem encode_frame_wire_shape (op : Opcode) (payload key : List Nat) :
    encode_frame op payload true key =
      (0x80 ||| op.toU8) ::
        ((if payload.length < 126 then [0x80 ||| payload.length]
          else if payload.length < 65536 then
            (0x80 ||| 126) :: be16 payload.length
          else (0x80 ||| 127) :: be64 payload.length) ++
          (key ++ payload.mapIdx fun i b => b ^^^ key.getD (i % 4) 0)) := by
  have hmask := maskFrom_eq_mapIdx key 0 payload
  simp only [Nat.zero_add] at hmask
  simp [encode_frame, hmask]

/-- C3 counterexample: on the WebSocket connect path, a handshake failure
is propagated directly as the final error by the question-mark operator,
with the fallback path entered zero times (not once) even though a
fallback request would succeed, contradicting the claim that the policy
holds for every entry point of the client. -/
theorem wss_no_fallback_counterexample :
    wss_connect
        { handshake := .error 7, offload := .ok (), wsRest := .ok 0 } =
      (0, .error (.handshakeErr 7)) ∧
    (0 : Nat) ≠ 1 := by
  exact ⟨rfl, by decide⟩

/-- C3 (amended): on the HTTPS request path a handshake or offload failure
routes the request to the fallback path exactly once and the final result
is the fallback result, so such a failure is the final error only when the
fallback itself fails; on the WebSocket connect path a handshake or
offload failure is propagated directly as the final error and the fallback
path is never entered. -/
theorem https_fallback_routing :
    (∀ env : HttpsEnv,
      env.handshake.isOk = false ∨ env.offload.isOk = false →
        (https_request env).1 = 1 ∧
        (https_request env).2 = env.fallback.mapError .fallbackErr) ∧
    (∀ env : WssEnv,
      (∀ e, env.handshake = .error e →
        wss_connect env = (0, .error (.handshakeErr e))) ∧
      (∀ e, env.handshake = .ok () → env.offload = .error e →
        wss_connect env = (0, .error (.offloadErr e)))) := by
  constructor
  · rintro ⟨hs, off, kr, fb⟩ hfail
    cases hs with
    | error e => exact ⟨rfl, rfl⟩
    | ok u =>
      cases u
      cases off with
      | error e => exact ⟨rfl, rfl⟩
      | ok u =>
        cases u
        rcases hfail with h | h <;>
          simp [Except.isOk, Except.toBool] at h
  · rintro ⟨hs, off, wr⟩
    constructor
    · rintro e rfl
      rfl
    · rintro e h rfl
      cases hs with
      | error f => simp at h
      | ok u => cases u; rfl

/-- Witness for https_fallback_routing: a concrete environment whose
handshake fails and whose fallback succeeds yields exactly one fallback
entry and the fallback response as the final result. -/
theorem https_fallback_routing_witness :
    (https_request
        { handshake := .error 3, offload := .ok (), ktlsReq := .ok 1,
          fallback := .ok 42 }).1 = 1 ∧
    (https_request
        { handshake := .error 3, offload := .ok (), ktlsReq := .ok 1,
          fallback := .ok 42 }).2 =
      (Except.ok 42 : Except Nat Nat).mapError FinalErr.fallbackErr :=
  https_fallback_routing.1
    { handshake := .error 3, offload := .ok (), ktlsReq := .ok 1,
      fallback := .ok 42 } (Or.inl rfl)

/-- C5 counterexample: an error of kind UnexpectedEof whose raw OS code is
not the distinguished delivery error code 5 is not propagated unchanged by
the kTLS read loop: once data has been received it is swallowed and the
loop ends successfully, contradicting the claim that only the
distinguished delivery error code is reinterpreted while any other I/O
error is propagated unchanged. -/
theorem ktls_loop_ue_counterexample :
    (IoErr.mk true none).raw ≠ some 5 ∧
    ktls_read_loop [.chunk [42], .fail ⟨true, none⟩] [] =
      some (.ok [42]) ∧
    some (Except.ok [42]) ≠
      (some (.error ⟨true, none⟩) : Option (Except IoErr (List Nat))) := by
  refine ⟨by decide, rfl, by simp⟩

/-- Accumulation lemma for the kTLS read loop: a run of non-empty chunks
followed by a zero-length read ends the loop successfully with all chunk
bytes appended to the accumulator. -/
theorem ktls_loop_chunks (cs : List (List Nat)) (h : ∀ c ∈ cs, c ≠ [])
    (rest : List ReadEvent) (acc : List Nat) :
    ktls_read_loop (cs.map ReadEvent.chunk ++ ReadEvent.chunk [] :: rest)
      acc = some (.ok (acc ++ cs.flatten)) := by
  induction cs generalizing acc with
  | nil => simp [ktls_read_loop]
  | cons c cs' ih =>
    have hc : c.isEmpty = false := by
      simpa [List.isEmpty_iff] using h c (by simp)
    simp only [List.map_cons, List.cons_append, ktls_read_loop, hc,
      Bool.false_eq_true, if_false, List.flatten_cons, List.append_eq]
    rw [ih (fun d hd => h d (by simp [hd])) (acc ++ c)]
    simp

/-- C5 (amended): in the kTLS read loop a zero-length read after at least
one non-empty read ends the loop successfully with the accumulated bytes;
the abrupt-close conditions of this transport are an UnexpectedEof-kind
error and an error with raw OS code 5 (EIO), either of which is
reinterpreted as implicit EOF when data has been received and remains a
hard error when no data has been received; an error that is neither is
propagated unchanged.  In the fallback read, the abrupt-close condition is
an UnexpectedEof-kind error only, with the same data/no-data behaviour,
and every other error is propagated unchanged. -/
theorem transport_read_loop_amended :
    (∀ (cs : List (List Nat)) (rest : List ReadEvent) (acc : List Nat),
      cs ≠ [] → (∀ c ∈ cs, c ≠ []) →
      ktls_read_loop (cs.map ReadEvent.chunk ++ ReadEvent.chunk [] :: rest)
        acc = some (.ok (acc ++ cs.flatten))) ∧
    (∀ (e : IoErr) (rest : List ReadEvent) (acc : List Nat),
      (e.ue = true ∨ e.raw = some 5) → acc ≠ [] →
      ktls_read_loop (.fail e :: rest) acc = some (.ok acc)) ∧
    (∀ (e : IoErr) (rest : List ReadEvent),
      ktls_read_loop (.fail e :: rest) [] = some (.error e)) ∧
    (∀ (e : IoErr) (rest : List ReadEvent) (acc : List Nat),
      e.ue = false → e.raw ≠ some 5 →
      ktls_read_loop (.fail e :: rest) acc = some (.error e)) ∧
    (∀ acc : List Nat, fallback_read acc none = .ok acc) ∧
    (∀ (acc : List Nat) (e : IoErr), e.ue = true → acc ≠ [] →
      fallback_read acc (some e) = .ok acc) ∧
    (∀ (acc : List Nat) (e : IoErr), e.ue = false ∨ acc = [] →
      fallback_read acc (some e) = .error e) := by
  refine ⟨fun cs rest acc _ hne => ktls_loop_chunks cs hne rest acc,
    ?_, ?_, ?_, fun acc => rfl, ?_, ?_⟩
  · rintro ⟨ue, raw⟩ rest acc hcond hacc
    have hne : ¬ acc.isEmpty := by simpa [List.isEmpty_iff] using hacc
    rcases hcond with h | h
    · subst h
      simp [ktls_read_loop, hne]
    · subst h
      by_cases hue : ue <;> simp [ktls_read_loop, hue, hne]
  · rintro ⟨ue, raw⟩ rest
    by_cases hue : ue <;> simp [ktls_read_loop, hue]
  · rintro ⟨ue, raw⟩ rest acc hue hraw
    subst hue
    simp only at hraw
    simp [ktls_read_loop, hraw]
  · rintro acc ⟨ue, raw⟩ hue hacc
    subst hue
    have hne : ¬ acc.isEmpty := by simpa [List.isEmpty_iff] using hacc
    simp [fallback_read, hne]
  · rintro acc ⟨ue, raw⟩ hcond
    rcases hcond with h | h
    · subst h
      simp [fallback_read]
    · subst h
      by_cases hue : ue <;> simp [fallback_read, hue]

/-- Witness for transport_read_loop_amended: one non-empty chunk followed
by a zero-length read yields the chunk bytes. -/
theorem transport_read_loop_amended_witness :
    ktls_read_loop ([[42], [7]].map ReadEvent.chunk ++
      ReadEvent.chunk [] :: []) [] =
      some (.ok ([] ++ ([[42], [7]] : List (List Nat)).flatten)) :=
  transport_read_loop_amended.1 [[42], [7]] [] [] (by decide) (by decide)

/-- C9: a buffer of length at least 2 whose first byte has a reserved low
nibble (0x3 to 0x7 or 0xB to 0xF) makes parse_frame_header and hence
decode_frame return the same incomplete signal used for a short buffer,
never an error. -/
theorem reserved_opcode_incomplete (b0 b1 : Nat) (rest : List Nat)
    (hres : (3 ≤ b0 &&& 0x0F ∧ b0 &&& 0x0F ≤ 7) ∨
      (11 ≤ b0 &&& 0x0F ∧ b0 &&& 0x0F ≤ 15)) :
    parse_frame_header (b0 :: b1 :: rest) = none ∧
    decode_frame (b0 :: b1 :: rest) = DecodeResult.incomplete := by
  have hnib : Opcode.fromU8 (b0 &&& 0x0F) = none := by
    generalize hg : b0 &&& 0x0F = m at hres
    rcases hres with ⟨h3, h7⟩ | ⟨h11, h15⟩ <;> interval_cases m <;> rfl
  have hparse : parse_frame_header (b0 :: b1 :: rest) = none := by
    simp only [parse_frame_header, List.length_cons, List.getD_cons_zero,
      hnib]
    simp [show ¬ rest.length + 1 + 1 < 2 by omega]
  exact ⟨hparse, by simp only [decode_frame, hparse]⟩

/-- Witness for reserved_opcode_incomplete at the buffer [0x83, 0x00]
(reserved nibble 3). -/
theorem reserved_opcode_incomplete_witness :
    parse_frame_header [0x83, 0x00] = none ∧
    decode_frame [0x83, 0x00] = DecodeResult.incomplete :=
  reserved_opcode_incomplete 0x83 0x00 [] (by decide)

theorem getD_lt (data : List Nat) (i : Nat) (hb : ∀ b ∈ data, b < 256) :
    data.getD i 0 < 256 := by
  by_cases hi : i < data.length
  · rw [List.getD_eq_getElem data 0 hi]
    exact hb _ (List.getElem_mem hi)
  · rw [List.getD_eq_default data 0 (by omega)]
    norm_num

/-- Structural facts about a successfully parsed header of a byte buffer:
the payload length fits in 64 bits, the header length is one of the values
2, 4, 10 (+4 when the mask bit of the second byte is set). -/
theorem parse_shape (data : List Nat) (h : FrameHeader)
    (hbytes : ∀ b ∈ data, b < 256)
    (hp : parse_frame_header data = some h) :
    h.payload_len < 2 ^ 64 ∧ 2 ≤ h.header_len ∧ h.header_len ≤ 14 ∧
      (data.getD 1 0 &&& 0x80 ≠ 0 → 6 ≤ h.header_len) := by
  have g1 : data.getD 1 0 &&& 0x7F < 128 := by
    have := Nat.and_le_right (n := data.getD 1 0) (m := 0x7F)
    omega
  have g2 := getD_lt data 2 hbytes
  have g3 := getD_lt data 3 hbytes
  have g4 := getD_lt data 4 hbytes
  have g5 := getD_lt data 5 hbytes
  have g6 := getD_lt data 6 hbytes
  have g7 := getD_lt data 7 hbytes
  have g8 := getD_lt data 8 hbytes
  have g9 := getD_lt data 9 hbytes
  obtain ⟨o, pl, hl⟩ := h
  simp only [parse_frame_header] at hp
  by_cases h2 : data.length < 2
  · simp [h2] at hp
  · simp only [h2, if_false] at hp
    cases hop : Opcode.fromU8 (data.getD 0 0 &&& 0x0F) with
    | none => rw [hop] at hp; simp at hp
    | some op =>
      rw [hop] at hp
      by_cases hlb : data.getD 1 0 &&& 0x7F < 126
      · simp only [hlb, if_true] at hp
        simp only [Option.some.injEq, FrameHeader.mk.injEq] at hp
        obtain ⟨-, hpl, hhl⟩ := hp
        subst hpl
        subst hhl
        dsimp only
        refine ⟨by omega, ?_⟩
        by_cases hm : data.getD 1 0 &&& 0x80 ≠ 0
        · rw [if_pos hm]
          omega
        · rw [if_neg hm]
          omega
      · by_cases heq : data.getD 1 0 &&& 0x7F = 126
        · simp only [hlb, heq, eq_self_iff_true, lt_self_iff_false,
            if_false, if_true, ite_true, ite_false] at hp
          by_cases hl4 : data.length < 4
          · simp [hl4] at hp
          · simp only [hl4, if_false] at hp
            simp only [Option.some.injEq, FrameHeader.mk.injEq] at hp
            obtain ⟨-, hpl, hhl⟩ := hp
            subst hpl
            subst hhl
            dsimp only
            refine ⟨by omega, ?_⟩
            by_cases hm : data.getD 1 0 &&& 0x80 ≠ 0
            · rw [if_pos hm]
              omega
            · rw [if_neg hm]
              omega
        · simp only [hlb, heq, if_false] at hp
          by_cases hl10 : data.length < 10
          · simp [hl10] at hp
          · simp only [hl10, if_false] at hp
            simp only [Option.some.injEq, FrameHeader.mk.injEq] at hp
            obtain ⟨-, hpl, hhl⟩ := hp
            subst hpl
            subst hhl
            dsimp only
            refine ⟨by omega, ?_⟩
            by_cases hm : data.getD 1 0 &&& 0x80 ≠ 0
            · rw [if_pos hm]
              omega
            · rw [if_neg hm]
              omega

/-- C10: whenever decode_frame returns a message with a consumed count on
a byte buffer, the count equals the header length plus the payload length
of the parsed header, it does not exceed the buffer length, the payload
slice [header_len, consumed) lies within the buffer, and for a masked
frame the mask-key slice [header_len - 4, header_len) lies within the
buffer with no index underflow. -/
theorem decode_consumed_bounds (data : List Nat) (msg : Message)
    (consumed : Nat) (hbytes : ∀ b ∈ data, b < 256)
    (hok : decode_frame data = .ok msg consumed) :
    ∃ h, parse_frame_header data = some h ∧
      consumed = h.header_len + h.payload_len ∧
      consumed ≤ data.length ∧ h.header_len ≤ consumed ∧
      (data.getD 1 0 &&& 0x80 ≠ 0 →
        4 ≤ h.header_len ∧ h.header_len - 4 + 4 ≤ data.length) := by
  cases hp : parse_frame_header data with
  | none => simp [decode_frame, hp] at hok
  | some h =>
    obtain ⟨hpl, hhl2, hhl14, hmasked⟩ := parse_shape data h hbytes hp
    refine ⟨h, rfl, ?_⟩
    simp only [decode_frame, hp] at hok
    split at hok
    · exact (DecodeResult.noConfusion hok)
    · rename_i hcut
      split at hok
      · exact (DecodeResult.noConfusion hok)
      · rename_i hw
        injection hok with hmsg hcons
        have hnowrap : h.header_len + h.payload_len < 2 ^ 64 := by omega
        refine ⟨by omega, by omega, by omega, fun hmk => ?_⟩
        have h6 := hmasked hmk
        exact ⟨by omega, by omega⟩

/-- Witness for decode_consumed_bounds at the unmasked binary frame
[0x82, 0x01, 0xAB]. -/
theorem decode_consumed_bounds_witness :
    ∃ h, parse_frame_header [0x82, 0x01, 0xAB] = some h ∧
      (3 : Nat) = h.header_len + h.payload_len ∧
      (3 : Nat) ≤ ([0x82, 0x01, 0xAB] : List Nat).length ∧
      h.header_len ≤ 3 ∧
      (([0x82, 0x01, 0xAB] : List Nat).getD 1 0 &&& 0x80 ≠ 0 →
        4 ≤ h.header_len ∧
        h.header_len - 4 + 4 ≤ ([0x82, 0x01, 0xAB] : List Nat).length) :=
  decode_consumed_bounds [0x82, 0x01, 0xAB] (.Binary [0xAB]) 3
    (by decide) (by decide)

/-- C4: for a buffer shorter than the frame's declared total length the
decoder signals incomplete and consumes nothing, provided the declared
header-plus-payload total does not overflow the 64-bit usize arithmetic of
the source.  At the 10-byte buffer whose 64-bit length field declares
2 ^ 64 - 5 payload bytes the claim fails: the buffer is shorter than the
declared total, yet the source panics (usize overflow in a debug build,
an inverted slice range in a release build) instead of returning the
incomplete signal. -/
theorem decode_incomplete_short_buffer :
    (∀ (data : List Nat) (h : FrameHeader),
      parse_frame_header data = some h →
      h.header_len + h.payload_len < 2 ^ 64 →
      data.length < h.header_len + h.payload_len →
      decode_frame data = .incomplete) ∧
    (parse_frame_header
        [0x82, 0x7F, 0xFF, 0xFF, 0xFF, 0xFF, 0xFF, 0xFF, 0xFF, 0xFB] =
      some { opcode := .Binary, payload_len := 2 ^ 64 - 5,
             header_len := 10 } ∧
      (10 : Nat) < 10 + (2 ^ 64 - 5) ∧
      decode_frame
        [0x82, 0x7F, 0xFF, 0xFF, 0xFF, 0xFF, 0xFF, 0xFF, 0xFF, 0xFB] =
        .panic) := by
  constructor
  · intro data h hp hnw hshort
    simp only [decode_frame, hp]
    rw [if_pos (by rw [Nat.mod_eq_of_lt hnw]; exact hshort)]
  · exact ⟨by decide, by decide, by decide⟩

/-- Witness for the guarded part of decode_incomplete_short_buffer at the
2-byte buffer [0x81, 0x05], which declares 5 payload bytes. -/
theorem decode_incomplete_short_buffer_witness :
    decode_frame [0x81, 0x05] = .incomplete :=
  decode_incomplete_short_buffer.1 [0x81, 0x05]
    { opcode := .Text, payload_len := 5, header_len := 2 }
    (by decide) (by decide) (by decide)

/-- C7: a handshake response that carries the correct accept value for the
client key but whose lowercased text does not contain the string
connection: upgrade is rejected by validate_handshake_response. -/
theorem validate_missing_connection (response sec_key accept : List Char)
    (hacc : findAccept (linesOf response) = some accept)
    (hcorrect : accept.map Char.toNat =
      compute_accept_key (utf8Bytes sec_key))
    (hmiss : containsSub (response.map Char.toLower)
      (strChars "connection: upgrade") = false) :
    ∃ e, validate_handshake_response response sec_key = .error e := by
  unfold validate_handshake_response
  by_cases h1 : (strChars "HTTP/1.1 101").isPrefixOf response
  · by_cases h2 : containsSub (response.map Char.toLower)
      (strChars "upgrade: websocket")
    · refine ⟨.missingConnection, ?_⟩
      rw [if_neg (by simp [h1]), if_neg (by simp [h2]),
        if_pos (by simp [hmiss])]
    · refine ⟨.missingUpgrade, ?_⟩
      rw [if_neg (by simp [h1]), if_pos (by simp [h2])]
  · exact ⟨.badStatus, by rw [if_pos (by simp [h1])]⟩

set_option maxRecDepth 40000 in
/-- Witness for validate_missing_connection: a response with the correct
RFC 6455 accept value but no Connection header is rejected. -/
theorem validate_missing_connection_witness :
    ∃ e, validate_handshake_response
      (strChars "HTTP/1.1 101 Switching Protocols\r\nUpgrade: websocket\r\nSec-WebSocket-Accept: s3pPLMBiTxaQ9kYGzzhZRbK+xOo=\r\n\r\n")
      (strChars "dGhlIHNhbXBsZSBub25jZQ==") = .error e :=
  validate_missing_connection _ _ (strChars "s3pPLMBiTxaQ9kYGzzhZRbK+xOo=")
    (by decide) (by decide) (by decide)

end KtlsDemo
